import Mathlib

/-!
Verification of the agent-orchestration and message-part persistence subsystem
of the romy repository, as a shallow embedding in Lean.

Embedded source files:
- the part codec (mapUIMessagePartsToDBParts and mapDBPartToUIMessagePart);
- the Tavily search provider (mergeResults, setCache);
- the search tool (the effective max-results computation);
- the researcher factory (mode policy and the quick-mode search wrapper);
- the conversation orchestrator (prepareMessages, regeneration branch).

Modelling conventions:
- opaque JSON payloads (tool inputs/outputs, provider metadata, data-part
  contents) are an inductive `Val`;
- JavaScript strings are `String`; a nullable/undefinable field is `Option`;
- the JS falsy coalescing `a || b` on strings is `jsOrStr` (empty string is
  falsy, as in JS);
- relevance scores are rationals (the TS floats are only compared and
  subtracted in a comparator; comparison behaviour is what the claims use);
- JS `Map` (insertion-ordered) is an association list;
- throwing code returns `Except String`.
-/

namespace Romy

/-- Opaque JSON-ish payload values carried by message parts.  `Val.wholePart`
models the case where the codec stores an entire data-part object (its type
tag, optional `data` member and optional `id` member) into the generic
`data_content` column, as the default branch of the encoder does for a part
lacking a `data` member. -/
inductive Val where
  | str : String → Val
  | int : Int → Val
  | wholePart : String → Option Val → Option String → Val

/-- The closed set of tool states (`ToolState` in the TS source). -/
inductive ToolState where
  | inputStreaming
  | inputAvailable
  | outputAvailable
  | outputError
  deriving DecidableEq

/-- The state string actually stored in the `tool_state` column. -/
def ToolState.toStr : ToolState → String
  | .inputStreaming => "input-streaming"
  | .inputAvailable => "input-available"
  | .outputAvailable => "output-available"
  | .outputError => "output-error"

/-- The five statically registered tools that have dedicated
`tool_<name>_input` / `tool_<name>_output` columns. -/
inductive ExtToolName where
  | search
  | fetch
  | question
  | todoWrite
  | todoRead
  deriving DecidableEq

def ExtToolName.toStr : ExtToolName → String
  | .search => "search"
  | .fetch => "fetch"
  | .question => "question"
  | .todoWrite => "todoWrite"
  | .todoRead => "todoRead"

/-- The UI message-part union (the local part types of the mapping module).
`toolCall` / `toolResult` model the AI-SDK `tool-call` / `tool-result` events
(`toolCallId` and `args` are `Option` so that the `isToolCallPart` guard can
fail; `toolName` is modelled as always a string).  `extTool` models the five
`tool-<name>` parts with state tracking (`ExtendedToolPart`), `dynamicTool`
the AI-SDK v5 `dynamic-tool` part (whose runtime `state` value is an
arbitrary string, cast unchecked in the source), and `dataPart` any part
whose type tag is none of the statically handled ones (in particular the
`data-` passthrough parts). -/
inductive UIMessagePart where
  | text : String → UIMessagePart
  | reasoning : String → Option Val → UIMessagePart
  | file : String → Option String → String → UIMessagePart
  | sourceUrl : String → String → String → UIMessagePart
  | sourceDocument : String → String → String → String → String → String → UIMessagePart
  | toolCall : Option String → String → Option Val → UIMessagePart
  | toolResult : Option String → Option Val → Option Bool → UIMessagePart
  | stepStart : UIMessagePart
  | stepResult : UIMessagePart
  | stepContinue : UIMessagePart
  | stepFinish : UIMessagePart
  | dynamicTool : Option String → String → Option String → Option Val → Option Val → Option String → UIMessagePart
  | extTool : ExtToolName → Option String → Option ToolState → Option String → Option Val → Option Val → UIMessagePart
  | dataPart : String → Option Val → Option String → UIMessagePart

/-- The flattened relational row shape (`DBMessagePart` of the schema);
every variant-specific column is nullable.  The `tool_state` column is a raw
string: the decoder must defend against values outside the closed set.
`dataPref` models the source's `data_prefix` column. -/
structure DBMessagePart where
  messageId : String
  order : Nat
  type : String
  text_text : Option String := none
  reasoning_text : Option String := none
  providerMetadata : Option Val := none
  file_mediaType : Option String := none
  file_filename : Option String := none
  file_url : Option String := none
  source_url_sourceId : Option String := none
  source_url_url : Option String := none
  source_url_title : Option String := none
  source_document_sourceId : Option String := none
  source_document_mediaType : Option String := none
  source_document_title : Option String := none
  source_document_filename : Option String := none
  source_document_url : Option String := none
  source_document_snippet : Option String := none
  tool_toolCallId : Option String := none
  tool_state : Option String := none
  tool_errorText : Option String := none
  tool_search_input : Option Val := none
  tool_search_output : Option Val := none
  tool_fetch_input : Option Val := none
  tool_fetch_output : Option Val := none
  tool_question_input : Option Val := none
  tool_question_output : Option Val := none
  tool_todoWrite_input : Option Val := none
  tool_todoWrite_output : Option Val := none
  tool_todoRead_input : Option Val := none
  tool_todoRead_output : Option Val := none
  tool_dynamic_input : Option Val := none
  tool_dynamic_output : Option Val := none
  tool_dynamic_name : Option String := none
  tool_dynamic_type : Option String := none
  dataPref : Option String := none
  data_content : Option Val := none
  data_id : Option String := none

/-- JS string coalescing `a || d`: `undefined` and the empty string are
falsy. -/
def jsOrStr (a : Option String) (d : String) : String :=
  match a with
  | some s => if s = "" then d else s
  | none => d

/-- JS `a ? a : undefined` on an optional string column (used when the
decoder re-attaches `data_id` only when truthy). -/
def truthyOpt (a : Option String) : Option String :=
  match a with
  | some s => if s = "" then none else some s
  | none => none

/-- Models `generateId()` (a fresh cuid2); the only property used anywhere
is that it is a non-empty string. -/
def generateId : String := "generated-id"

/-- JS `String(x)` applied to a possibly-undefined payload (used for
`tool_errorText` on an erroring tool result). -/
def jsStringOf : Option Val → String
  | none => "undefined"
  | some (.str s) => s
  | some (.int n) => toString n
  | some (.wholePart _ _ _) => "[object Object]"

/-- Models `startsWith`, computed on the character lists (extensionally the same as
`String.startsWith`, stated this way so prefix facts are provable). -/
def strStartsWith (s p : String) : Bool :=
  p.data.isPrefixOf s.data

/-- Models `String.drop`, computed on the character list. -/
def strDrop (s : String) (n : Nat) : String :=
  String.mk (s.data.drop n)

/-- Read the `tool_<toolName>_input` column; an unregistered tool name has
no such column, so the read yields `undefined`. -/
def getInputColumn (toolName : String) (r : DBMessagePart) : Option Val :=
  if toolName = "search" then r.tool_search_input
  else if toolName = "fetch" then r.tool_fetch_input
  else if toolName = "question" then r.tool_question_input
  else if toolName = "todoWrite" then r.tool_todoWrite_input
  else if toolName = "todoRead" then r.tool_todoRead_input
  else if toolName = "dynamic" then r.tool_dynamic_input
  else none

/-- Read the `tool_<toolName>_output` column. -/
def getOutputColumn (toolName : String) (r : DBMessagePart) : Option Val :=
  if toolName = "search" then r.tool_search_output
  else if toolName = "fetch" then r.tool_fetch_output
  else if toolName = "question" then r.tool_question_output
  else if toolName = "todoWrite" then r.tool_todoWrite_output
  else if toolName = "todoRead" then r.tool_todoRead_output
  else if toolName = "dynamic" then r.tool_dynamic_output
  else none

/-- Write the `tool_<toolName>_input` column; writing a column that does not
exist in the row shape is dropped by the storage layer, so it leaves the row
unchanged. -/
def setInputColumn (toolName : String) (v : Option Val) (r : DBMessagePart) : DBMessagePart :=
  if toolName = "search" then { r with tool_search_input := v }
  else if toolName = "fetch" then { r with tool_fetch_input := v }
  else if toolName = "question" then { r with tool_question_input := v }
  else if toolName = "todoWrite" then { r with tool_todoWrite_input := v }
  else if toolName = "todoRead" then { r with tool_todoRead_input := v }
  else if toolName = "dynamic" then { r with tool_dynamic_input := v }
  else r

/-- Write the `tool_<toolName>_output` column. -/
def setOutputColumn (toolName : String) (v : Option Val) (r : DBMessagePart) : DBMessagePart :=
  if toolName = "search" then { r with tool_search_output := v }
  else if toolName = "fetch" then { r with tool_fetch_output := v }
  else if toolName = "question" then { r with tool_question_output := v }
  else if toolName = "todoWrite" then { r with tool_todoWrite_output := v }
  else if toolName = "todoRead" then { r with tool_todoRead_output := v }
  else if toolName = "dynamic" then { r with tool_dynamic_output := v }
  else r

/-- Source function `getToolNameFromType`: normalize a tool name (from a `tool-call` part)
to its DB column name; dynamic/MCP namespaced names collapse to
`"dynamic"`. -/
def getToolNameFromType (toolName : String) : String :=
  if strStartsWith toolName "mcp__" || strStartsWith toolName "dynamic__" then "dynamic"
  else if toolName = "search" then "search"
  else if toolName = "fetch" then "fetch"
  else if toolName = "askQuestion" then "question"
  else if toolName = "question" then "question"
  else if toolName = "todoWrite" then "todoWrite"
  else if toolName = "todoRead" then "todoRead"
  else toolName

/-- The untyped predicate of the `tool-result` lookup:
`part.type === 'tool-call' && part.toolCallId === toolCallId` (no validity
guard; both sides may be `undefined`). -/
def isToolCallWithId (tid : Option String) : UIMessagePart → Bool
  | .toolCall tid2 _ _ => tid2 = tid
  | _ => false

/-- The `isToolCallPart` type guard. -/
def isToolCallPartB : UIMessagePart → Bool
  | .toolCall tid _ args => tid.isSome && args.isSome
  | _ => false

/-- Source function `getToolNameFromCallId`: join a `tool-result` against the `tool-call`
with the same call id inside the same batch; falls back to `"unknown"`. -/
def getToolNameFromCallId (tid : Option String) (allParts : List UIMessagePart) : String :=
  match allParts.find? (isToolCallWithId tid) with
  | some (.toolCall _ tname _) => getToolNameFromType tname
  | _ => "unknown"

/-- The guarded lookup used to preserve dynamic-tool metadata on a
`tool-result`: `find(p => isToolCallPart(p) && p.toolCallId === ...)`,
returning that call's original tool name. -/
def findValidToolCallName (tid : Option String) (parts : List UIMessagePart) : Option String :=
  match parts.find? (fun p => isToolCallPartB p && isToolCallWithId tid p) with
  | some (.toolCall _ tname _) => some tname
  | _ => none

/-- Source function `createToolPartMapping`: the shared row shape for the five extended tool
parts.  A missing call id gets a freshly generated one; a missing state
defaults to `input-available`; `errorText` and the tool-specific
input/output columns are copied as-is. -/
def createToolPartMapping (messageId : String) (order : Nat) (typ : String)
    (toolName : String) (tid : Option String) (st : Option ToolState)
    (err : Option String) (inp outp : Option Val) : DBMessagePart :=
  setOutputColumn toolName outp (setInputColumn toolName inp
    { messageId := messageId, order := order, type := typ,
      tool_toolCallId := some (jsOrStr tid generateId),
      tool_state := some ((st.getD ToolState.inputAvailable).toStr),
      tool_errorText := err })

/-- The body of the per-part mapping inside `mapUIMessagePartsToDBParts`
(the `map` callback): `none` models the callback returning `null` (the part
is dropped). `messageParts` is the whole batch (closed over for the
call-id join), `index` the part's position in it. -/
def mapOnePart (messageParts : List UIMessagePart) (messageId : String) (index : Nat) :
    UIMessagePart → Option DBMessagePart
  | .text t =>
      some { messageId := messageId, order := index, type := "text", text_text := some t }
  | .reasoning t pm =>
      some { messageId := messageId, order := index, type := "reasoning",
             reasoning_text := some t, providerMetadata := pm }
  | .file mt fn url =>
      some { messageId := messageId, order := index, type := "file",
             file_mediaType := some mt, file_filename := fn, file_url := some url }
  | .sourceUrl sid url title =>
      some { messageId := messageId, order := index, type := "source-url",
             source_url_sourceId := some sid, source_url_url := some url,
             source_url_title := some title }
  | .sourceDocument sid mt title fn url snip =>
      some { messageId := messageId, order := index, type := "source-document",
             source_document_sourceId := some sid, source_document_mediaType := some mt,
             source_document_title := some title, source_document_filename := some fn,
             source_document_url := some url, source_document_snippet := some snip }
  | .toolCall tid tname args =>
      if tid.isSome && args.isSome then
        let toolName := getToolNameFromType tname
        let r := setInputColumn toolName args
          { messageId := messageId, order := index, type := "tool-" ++ toolName,
            tool_toolCallId := tid,
            tool_state := some "input-available" }
        some (if toolName = "dynamic" then
          { r with tool_dynamic_name := some tname,
                   tool_dynamic_type := some (if strStartsWith tname "mcp__" then "mcp" else "dynamic") }
        else r)
      else none
  | .toolResult tid res isErr =>
      let resultToolName := getToolNameFromCallId tid messageParts
      let isError := isErr = some true
      let r := setOutputColumn resultToolName (if isError then none else res)
        { messageId := messageId, order := index, type := "tool-" ++ resultToolName,
          tool_toolCallId := tid,
          tool_state := some (if isError then "output-error" else "output-available"),
          tool_errorText := if isError then some (jsStringOf res) else none }
      some (if resultToolName = "dynamic" then
        match findValidToolCallName tid messageParts with
        | some tname =>
            { r with tool_dynamic_name := some tname,
                     tool_dynamic_type := some (if strStartsWith tname "mcp__" then "mcp" else "dynamic") }
        | none => r
      else r)
  | .stepStart =>
      some { messageId := messageId, order := index, type := "step-start" }
  | .stepResult => none
  | .stepContinue => none
  | .stepFinish => none
  | .dynamicTool tid tname st inp outp err =>
      some { messageId := messageId, order := index, type := "tool-dynamic",
             tool_toolCallId := some (jsOrStr tid generateId),
             tool_state := st,
             tool_dynamic_name := some tname,
             tool_dynamic_type := some (if strStartsWith tname "mcp__" then "mcp" else "dynamic"),
             tool_dynamic_input := inp,
             tool_dynamic_output := if st = some "output-available" then outp else none,
             tool_errorText := if st = some "output-error" then err else none }
  | .extTool name tid st err inp outp =>
      some (createToolPartMapping messageId index ("tool-" ++ name.toStr) name.toStr tid st err inp outp)
  | .dataPart typ dat id =>
      if strStartsWith typ "data-" then
        some { messageId := messageId, order := index, type := typ,
               dataPref := some (strDrop typ 5),
               data_content := some (match dat with
                 | some v => v
                 | none => Val.wholePart typ dat id),
               data_id := id }
      else
        some { messageId := messageId, order := index, type := typ,
               dataPref := some typ,
               data_content := some (Val.wholePart typ dat id) }

/-- The indexed map over the batch (`messageParts.map((part, index) => ...)`). -/
def mapPartsFrom (allParts : List UIMessagePart) (messageId : String) :
    Nat → List UIMessagePart → List (Option DBMessagePart)
  | _, [] => []
  | n, p :: ps => mapOnePart allParts messageId n p :: mapPartsFrom allParts messageId (n + 1) ps

/-- The trailing re-index (`.map((part, index) => ({ ...part, order: index }))`). -/
def reindexFrom (n : Nat) : List DBMessagePart → List DBMessagePart
  | [] => []
  | r :: rs => { r with order := n } :: reindexFrom (n + 1) rs

/-- Source function `mapUIMessagePartsToDBParts`: encode a batch of UI parts into rows —
map each part, drop the `null` results, then re-assign dense zero-based
`order` values. -/
def mapUIMessagePartsToDBParts (messageParts : List UIMessagePart) (messageId : String) :
    List DBMessagePart :=
  reindexFrom 0 ((mapPartsFrom messageParts messageId 0 messageParts).filterMap id)

/-- Source function `getOriginalToolName`: DB column name back to the original tool name. -/
def getOriginalToolName (dbToolName : String) : String :=
  if dbToolName = "search" then "search"
  else if dbToolName = "fetch" then "fetch"
  else if dbToolName = "question" then "askQuestion"
  else if dbToolName = "todoWrite" then "todoWrite"
  else if dbToolName = "todoRead" then "todoRead"
  else if dbToolName = "dynamic" then "dynamic"
  else dbToolName

/-- The state dispatch of a registered-tool decode block, on a non-null
stored state string: reject a falsy (empty) state, dispatch on the four
known state strings, and reject anything else (`Unknown tool state`). -/
def decodeRegisteredToolState (name : ExtToolName) (r : DBMessagePart) (st : String) :
    Except String UIMessagePart :=
  if st = "" then .error ("tool_state is undefined for " ++ name.toStr)
  else if st = "input-streaming" then
      .ok (.extTool name (some (jsOrStr r.tool_toolCallId "")) (some .inputStreaming)
        none (getInputColumn name.toStr r) none)
    else if st = "input-available" then
      .ok (.extTool name (some (jsOrStr r.tool_toolCallId "")) (some .inputAvailable)
        none (getInputColumn name.toStr r) none)
    else if st = "output-available" then
      .ok (.extTool name (some (jsOrStr r.tool_toolCallId "")) (some .outputAvailable)
        none (getInputColumn name.toStr r) (getOutputColumn name.toStr r))
    else if st = "output-error" then
      .ok (.extTool name (some (jsOrStr r.tool_toolCallId "")) (some .outputError)
        r.tool_errorText (getInputColumn name.toStr r) none)
    else .error ("Unknown tool state: " ++ st)

/-- The shared shape of the five registered-tool decode blocks: a `null`
state is rejected (`tool_state is undefined`), otherwise the state string
is dispatched. -/
def decodeRegisteredTool (name : ExtToolName) (r : DBMessagePart) : Except String UIMessagePart :=
  match r.tool_state with
  | none => .error ("tool_state is undefined for " ++ name.toStr)
  | some st => decodeRegisteredToolState name r st

/-- Source function `mapDBPartToUIMessagePart`: decode one row back into a UI part.
`Except.error` models a thrown `Error`. -/
def mapDBPartToUIMessagePart (r : DBMessagePart) : Except String UIMessagePart :=
  if r.type = "text" then
    .ok (.text (jsOrStr r.text_text ""))
  else if r.type = "reasoning" then
    .ok (.reasoning (jsOrStr r.reasoning_text "") r.providerMetadata)
  else if r.type = "file" then
    .ok (.file (jsOrStr r.file_mediaType "") (some (jsOrStr r.file_filename ""))
      (jsOrStr r.file_url ""))
  else if r.type = "source-url" then
    .ok (.sourceUrl (jsOrStr r.source_url_sourceId "") (jsOrStr r.source_url_url "")
      (jsOrStr r.source_url_title ""))
  else if r.type = "source-document" then
    .ok (.sourceDocument (jsOrStr r.source_document_sourceId "")
      (jsOrStr r.source_document_mediaType "") (jsOrStr r.source_document_title "")
      (jsOrStr r.source_document_filename "") (jsOrStr r.source_document_url "")
      (jsOrStr r.source_document_snippet ""))
  else if strStartsWith r.type "tool-" then
    let toolName := strDrop r.type 5
    if toolName = "dynamic" then
      .ok (.dynamicTool (some (jsOrStr r.tool_toolCallId "")) (jsOrStr r.tool_dynamic_name "")
        r.tool_state r.tool_dynamic_input r.tool_dynamic_output r.tool_errorText)
    else if toolName = "search" then decodeRegisteredTool .search r
    else if toolName = "fetch" then decodeRegisteredTool .fetch r
    else if toolName = "question" then decodeRegisteredTool .question r
    else if toolName = "todoWrite" then decodeRegisteredTool .todoWrite r
    else if toolName = "todoRead" then decodeRegisteredTool .todoRead r
    else if r.tool_state = some "input-available" || r.tool_state = some "input-streaming" then
      .ok (.toolCall (some (jsOrStr r.tool_toolCallId "")) (getOriginalToolName toolName)
        (getInputColumn toolName r))
    else
      .ok (.toolResult (some (jsOrStr r.tool_toolCallId ""))
        (if r.tool_state = some "output-error" then r.tool_errorText.map Val.str
         else getOutputColumn toolName r)
        (some (r.tool_state == some "output-error")))
  else if r.type = "step-start" then
    .ok .stepStart
  else
    match r.dataPref with
    | some pref =>
        if pref = "" then .error ("Unknown part type: " ++ r.type)
        else .ok (.dataPart ("data-" ++ pref) r.data_content (truthyOpt r.data_id))
    | none => .error ("Unknown part type: " ++ r.type)

/-! ## Search provider (Tavily): result merging and cache eviction -/

/-- One search result item; `score` is the optional relevance score
(`ExtendedSearchResultItem`). -/
structure SearchResultItem where
  url : String
  title : String
  content : String
  score : Option ℚ
  deriving DecidableEq

/-- One search result image (`processResults` normalizes the string form to
this object form before merging, so images are modelled as objects). -/
structure SearchResultImage where
  url : String
  description : String
  deriving DecidableEq

/-- A search result set (`ExtendedSearchResults`). -/
structure SearchResults where
  query : Option String := none
  results : List SearchResultItem := []
  images : List SearchResultImage := []
  answer : Option String := none
  number_of_results : Option Nat := none
  deriving DecidableEq

/-- JS `a || b` on two optional strings (the answer merge). -/
def jsOrOpt (a b : Option String) : Option String :=
  match a with
  | some s => if s = "" then b else some s
  | none => b

/-- The expression `maxResults || 20`: the limit used by `mergeResults` (0 and `undefined`
are falsy). -/
def jsLimit (maxResults : Option Nat) : Nat :=
  match maxResults with
  | some n => if n = 0 then 20 else n
  | none => 20

/-- One step of the URL-dedup loop: skip an element whose key is already in
the seen-set, otherwise record the key and push the element. -/
def dedupStep {α : Type} (key : α → String) (acc : List String × List α) (x : α) :
    List String × List α :=
  if acc.1.contains (key x) then acc else (key x :: acc.1, acc.2 ++ [x])

/-- Specification-style first-occurrence dedup (keep an element iff its key
was not seen before), used to state what the fold-based loop computes. -/
def dedupFirst {α : Type} (key : α → String) : List α → List String → List α
  | [], _ => []
  | x :: rest, seen =>
      if seen.contains (key x) then dedupFirst key rest seen
      else x :: dedupFirst key rest (key x :: seen)

/-- The sort key of the relevance comparator: `item.score || 0`. -/
def scoreOf (it : SearchResultItem) : ℚ :=
  it.score.getD 0

/-- Stable descending insertion by `scoreOf` (walk past strictly greater
scores only, so equal scores keep their original relative order — the
behaviour of the stable JS `Array.prototype.sort` with comparator
`(b.score||0) - (a.score||0)`). -/
def insertDesc (x : SearchResultItem) : List SearchResultItem → List SearchResultItem
  | [] => [x]
  | y :: ys => if scoreOf x < scoreOf y then y :: insertDesc x ys else x :: y :: ys

/-- Stable descending sort by `scoreOf` (models the JS stable sort with the
relevance comparator). -/
def sortByScoreDesc : List SearchResultItem → List SearchResultItem
  | [] => []
  | x :: xs => insertDesc x (sortByScoreDesc xs)

/-- Source method `TavilySearchProvider.mergeResults`: merge multiple result sets —
empty input yields an empty set, a single set is returned unchanged, and
otherwise results are URL-deduplicated (first occurrence wins), sorted by
descending relevance score, and truncated; images are URL-deduplicated and
capped at 10; the answer is `results[0].answer || results[1]?.answer`. -/
def mergeResults (results : List SearchResults) (maxResults : Option Nat) : SearchResults :=
  let limit := jsLimit maxResults
  match results with
  | [] => { results := [], images := [] }
  | [r] => r
  | r0 :: r1 :: rest =>
    let all := r0 :: r1 :: rest
    let merged := (all.foldl (fun acc r => r.results.foldl (dedupStep (fun it => it.url)) acc)
      (([] : List String), ([] : List SearchResultItem))).2
    let mergedImages := (all.foldl (fun acc r => r.images.foldl (dedupStep (fun im => im.url)) acc)
      (([] : List String), ([] : List SearchResultImage))).2
    { query := r0.query,
      results := (sortByScoreDesc merged).take limit,
      images := mergedImages.take 10,
      answer := jsOrOpt r0.answer r1.answer }

/-- JS `Map.delete` on an insertion-ordered association list (removes the
single entry with that key). -/
def mapDelete {α : Type} (c : List (String × α)) (k : String) : List (String × α) :=
  c.eraseP (fun e => e.1 == k)

/-- JS `Map.set`: update in place (keeping insertion position) when the key
exists, otherwise append. -/
def mapSet {α : Type} (c : List (String × α)) (k : String) (v : α) : List (String × α) :=
  if c.any (fun e => e.1 = k) then c.map (fun e => if e.1 = k then (k, v) else e)
  else c ++ [(k, v)]

/-- Source method `TavilySearchProvider.setCache` (with `MAX_CACHE_SIZE = 100`): when the
cache is full, delete the first (earliest-inserted) key if it is truthy,
then set the new entry. -/
def setCache {α : Type} (c : List (String × α)) (k : String) (v : α) : List (String × α) :=
  let c1 :=
    if 100 ≤ c.length then
      match c.head? with
      | some e => if e.1 = "" then c else mapDelete c e.1
      | none => c
    else c
  mapSet c1 k v

/-! ## Search tool: effective max-results -/

/-- The effective max-results computation of `createSearchTool.execute`: the
destructuring default is 20 (`max_results = 20`), then
`Math.max(max_results || minResults, minResults)` with `minResults = 10`. -/
def effectiveMaxResults (max_results : Option Int) : Int :=
  let mr := max_results.getD 20
  max (if mr = 0 then 10 else mr) 10

/-! ## Researcher: mode policy and the quick-mode search wrapper -/

/-- The input object of the search tool (only the members the wrapper and
the claims touch). -/
structure SearchParams where
  query : String
  type : String
  max_results : Option Int := none
  search_depth : String := "basic"
  deriving DecidableEq

/-- A streamed event of the search tool's execution. -/
inductive SearchEvent where
  | searching : String → SearchEvent
  | complete : SearchResults → SearchEvent
  deriving DecidableEq

/-- What a tool's `execute` can hand back: an async-iterable stream of
events, or (the defensive non-streaming fallback) a single awaited value
that may be `undefined`. -/
inductive ExecOutcome where
  | streamed : List SearchEvent → ExecOutcome
  | single : Option SearchEvent → ExecOutcome
  deriving DecidableEq

/-- Source function `wrapSearchToolForQuickMode` as its generator body: force `type` to
`"optimized"`, delegate to the original `execute`, and yield every chunk of
a streamed result unmodified (an awaited non-stream result is yielded once,
with an empty-result default when falsy). -/
def wrapSearchToolForQuickMode (execOrig : SearchParams → ExecOutcome)
    (params : SearchParams) : List SearchEvent :=
  match execOrig { params with type := "optimized" } with
  | .streamed chunks => chunks
  | .single r => [r.getD (.complete { query := some params.query, number_of_results := some 0 })]

inductive SearchMode where
  | quick
  | planning
  | adaptive
  deriving DecidableEq

/-- The observable configuration `createResearcher` assembles: the step
budget (`stopWhen: stepCountIs(maxSteps)`), the active tool allow-list, the
search tool actually placed in the tool set (as its event stream), and the
per-step tool-choice override (`prepareStep`). -/
structure ResearcherSetup where
  maxSteps : Nat
  activeTools : List String
  searchExec : SearchParams → ExecOutcome
  prepareStep : Nat → Option String

/-- Source function `createResearcher`: mode-driven configuration.  `writerPresent` models
`writer` being passed (todo tools are created only then); the wrapped quick
search tool is a generator, hence always a stream. -/
def createResearcher (mode : SearchMode) (writerPresent : Bool)
    (execOrig : SearchParams → ExecOutcome) : ResearcherSetup :=
  let todoToolsAvailable := writerPresent
  match mode with
  | .quick =>
      { maxSteps := 20,
        activeTools := ["search", "fetch"],
        searchExec := fun p => .streamed (wrapSearchToolForQuickMode execOrig p),
        prepareStep := fun _ => none }
  | .planning =>
      { maxSteps := 50,
        activeTools := ["search", "fetch"] ++
          (if todoToolsAvailable then ["todoWrite", "todoRead"] else []),
        searchExec := execOrig,
        prepareStep := fun stepNumber =>
          if writerPresent && todoToolsAvailable then
            (if stepNumber = 0 then some "todoWrite" else none)
          else none }
  | .adaptive =>
      { maxSteps := 50,
        activeTools := ["search", "fetch"] ++
          (if todoToolsAvailable then ["todoWrite", "todoRead"] else []),
        searchExec := execOrig,
        prepareStep := fun _ => none }

/-! ## Conversation orchestrator: regeneration -/

/-- A chat message as the orchestrator sees it. -/
structure Message where
  id : String
  role : String
  deriving DecidableEq

/-- Modelled from the spec: `deleteMessagesFromIndex` (lib/actions/chat is
not among the sources) locates the message with the given id and deletes it
and everything after it from storage. -/
def deleteMessagesFromIndex (store : List Message) (messageId : String) : List Message :=
  match store.findIdx? (fun m => m.id == messageId) with
  | some i => store.take i
  | none => store

/-- Modelled from the spec: `upsertMessage` (lib/actions/chat is not among
the sources) replaces the row with the same message id, or inserts. -/
def upsertMessage (store : List Message) (m : Message) : List Message :=
  if store.any (fun x => x.id = m.id) then
    store.map (fun x => if x.id = m.id then m else x)
  else store ++ [m]

/-- Models `findLastIndex` with the JS convention of −1 for "not found". -/
def findLastIdxInt (store : List Message) (p : Message → Bool) : Int :=
  match store.reverse.findIdx? p with
  | some j => (store.length : Int) - 1 - (j : Int)
  | none => -1

/-- The shared tail of the regeneration branch once a target index is
resolved: an assistant target is deleted (with everything after it) and the
history strictly before it is returned; a user target is upserted when the
incoming edited message matches, everything strictly after it is deleted,
and the re-read history is returned.  The first component is the storage
state after the branch, the second the returned history. -/
def handleRegenTarget (store : List Message) (targetId : String) (edited : Option Message)
    (i : Nat) : List Message × List Message :=
  let target := store.getD i { id := "", role := "" }
  if target.role = "assistant" then
    (deleteMessagesFromIndex store targetId, store.take i)
  else
    let store1 := match edited with
      | some m => if m.id = targetId then upsertMessage store m else store
      | none => store
    let store2 := match (store.drop (i + 1)).head? with
      | some firstDeleted => deleteMessagesFromIndex store1 firstDeleted.id
      | none => store1
    (store2, store2)

/-- The regeneration branch of `prepareMessages` (trigger
`regenerate-message`): fail on an empty history, locate the target by id,
fall back to the last assistant-or-user position, and hand off to
`handleRegenTarget`. -/
def prepareMessagesRegenerate (store : List Message) (targetId : String)
    (edited : Option Message) : Except String (List Message × List Message) :=
  if store.length = 0 then .error "No messages found"
  else
    match store.findIdx? (fun m => m.id == targetId) with
    | some i => .ok (handleRegenTarget store targetId edited i)
    | none =>
      let la := findLastIdxInt store (fun m => m.role == "assistant")
      let lu := findLastIdxInt store (fun m => m.role == "user")
      if 0 ≤ la ∨ 0 ≤ lu then
        .ok (handleRegenTarget store targetId edited (max la lu).toNat)
      else .error ("Message " ++ targetId ++ " not found and no fallback available")

/-- The `tool_fields_required` check constraint of the parts table:
`type NOT LIKE 'tool-%' OR (tool_tool_call_id IS NOT NULL AND tool_state IS
NOT NULL)`. -/
def toolFieldsRequired (r : DBMessagePart) : Prop :=
  strStartsWith r.type "tool-" = false ∨
    (r.tool_toolCallId ≠ none ∧ r.tool_state ≠ none)

/-- The supported part variants of the round-trip claim, with the data-model
well-formedness the spec states for them: a present non-empty call id and a
state from the closed set for tool parts, output present only in
`output-available`, `errorText` only in `output-error`, a non-trivial
`data-` type tag, a present `data` member and a truthy-or-absent `id` for
passthrough parts.  `tool-call` / `tool-result` events and the transient
step parts are not in the claim's variant list. -/
def supportedWF : UIMessagePart → Bool
  | .text _ => true
  | .reasoning _ _ => true
  | .file _ _ _ => true
  | .sourceUrl _ _ _ => true
  | .sourceDocument _ _ _ _ _ _ => true
  | .extTool _ tid st err _ outp =>
      (match tid with | some t => t != "" | none => false) &&
      (match st with
       | none => false
       | some .inputStreaming => err.isNone && outp.isNone
       | some .inputAvailable => err.isNone && outp.isNone
       | some .outputAvailable => err.isNone
       | some .outputError => outp.isNone)
  | .dynamicTool tid _ st _ outp err =>
      (match tid with | some t => t != "" | none => false) &&
      (match st with
       | none => false
       | some s =>
         if s = "input-streaming" then err.isNone && outp.isNone
         else if s = "input-available" then err.isNone && outp.isNone
         else if s = "output-available" then err.isNone
         else if s = "output-error" then outp.isNone
         else false)
  | .dataPart typ dat id =>
      strStartsWith typ "data-" && (typ != "data-") && dat.isSome &&
      (match id with | some s => s != "" | none => true)
  | _ => false

/-- Decode-side canonicalization of a supported part: the only field whose
presence is not restored verbatim is the optional file name, which decodes
to the empty string when undefined; every other defined field round-trips
exactly. -/
def canonPart : UIMessagePart → UIMessagePart
  | .file mt fn url => .file mt (some (fn.getD "")) url
  | p => p

/-! ## Helper lemmas -/

lemma strStartsWith_iff (s p : String) :
    strStartsWith s p = true ↔ ∃ t, p.data ++ t = s.data := by
  unfold strStartsWith
  rw [List.isPrefixOf_iff_prefix]
  exact Iff.rfl

lemma jsOrStr_some_default_empty (t : String) : jsOrStr (some t) "" = t := by
  unfold jsOrStr
  by_cases h : t = ""
  · simp [h]
  · simp [h]

lemma setInputColumn_shared (n : String) (v : Option Val) (r : DBMessagePart) :
    (setInputColumn n v r).order = r.order ∧ (setInputColumn n v r).type = r.type ∧
    (setInputColumn n v r).tool_toolCallId = r.tool_toolCallId ∧
    (setInputColumn n v r).tool_state = r.tool_state ∧
    (setInputColumn n v r).tool_errorText = r.tool_errorText := by
  unfold setInputColumn
  split_ifs <;> exact ⟨rfl, rfl, rfl, rfl, rfl⟩

lemma setOutputColumn_shared (n : String) (v : Option Val) (r : DBMessagePart) :
    (setOutputColumn n v r).order = r.order ∧ (setOutputColumn n v r).type = r.type ∧
    (setOutputColumn n v r).tool_toolCallId = r.tool_toolCallId ∧
    (setOutputColumn n v r).tool_state = r.tool_state ∧
    (setOutputColumn n v r).tool_errorText = r.tool_errorText := by
  unfold setOutputColumn
  split_ifs <;> exact ⟨rfl, rfl, rfl, rfl, rfl⟩

lemma createToolPartMapping_shared (mid : String) (i : Nat) (typ tn : String)
    (tid : Option String) (st : Option ToolState) (err : Option String)
    (inp outp : Option Val) :
    (createToolPartMapping mid i typ tn tid st err inp outp).order = i ∧
    (createToolPartMapping mid i typ tn tid st err inp outp).type = typ ∧
    (createToolPartMapping mid i typ tn tid st err inp outp).tool_toolCallId =
      some (jsOrStr tid generateId) ∧
    (createToolPartMapping mid i typ tn tid st err inp outp).tool_state =
      some ((st.getD ToolState.inputAvailable).toStr) ∧
    (createToolPartMapping mid i typ tn tid st err inp outp).tool_errorText = err := by
  unfold createToolPartMapping
  obtain ⟨ho, ht, hc, hs, he⟩ := setOutputColumn_shared tn outp (setInputColumn tn inp
    { messageId := mid, order := i, type := typ,
      tool_toolCallId := some (jsOrStr tid generateId),
      tool_state := some ((st.getD ToolState.inputAvailable).toStr),
      tool_errorText := err })
  obtain ⟨ho2, ht2, hc2, hs2, he2⟩ := setInputColumn_shared tn inp
    { messageId := mid, order := i, type := typ,
      tool_toolCallId := some (jsOrStr tid generateId),
      tool_state := some ((st.getD ToolState.inputAvailable).toStr),
      tool_errorText := err }
  refine ⟨?_, ?_, ?_, ?_, ?_⟩ <;> simp_all

lemma update_dynamic_meta_order (x : DBMessagePart) (a b : Option String) :
    ({ x with tool_dynamic_name := a, tool_dynamic_type := b } : DBMessagePart).order =
      x.order := by
  cases x
  rfl

lemma update_dynamic_meta_type (x : DBMessagePart) (a b : Option String) :
    ({ x with tool_dynamic_name := a, tool_dynamic_type := b } : DBMessagePart).type =
      x.type := by
  cases x
  rfl

lemma mapOnePart_order (A : List UIMessagePart) (mid : String) (i : Nat)
    (p : UIMessagePart) (r : DBMessagePart) (h : mapOnePart A mid i p = some r) :
    r.order = i := by
  cases p <;> simp only [mapOnePart] at h
  case text => cases h; rfl
  case reasoning => cases h; rfl
  case file => cases h; rfl
  case sourceUrl => cases h; rfl
  case sourceDocument => cases h; rfl
  case toolCall tid tname args =>
    split at h
    · cases h
      split
      · rw [update_dynamic_meta_order]
        exact (setInputColumn_shared _ _ _).1
      · exact (setInputColumn_shared _ _ _).1
    · cases h
  case toolResult tid res isErr =>
    cases h
    split
    · split
      · rw [update_dynamic_meta_order]
        exact (setOutputColumn_shared _ _ _).1
      · exact (setOutputColumn_shared _ _ _).1
    · exact (setOutputColumn_shared _ _ _).1
  case stepStart => cases h; rfl
  case stepResult => exact Option.noConfusion h
  case stepContinue => exact Option.noConfusion h
  case stepFinish => exact Option.noConfusion h
  case dynamicTool => cases h; rfl
  case extTool name tid st err inp outp =>
    cases h
    exact (createToolPartMapping_shared _ _ _ _ _ _ _ _ _).1
  case dataPart typ dat id =>
    split at h <;> (cases h; rfl)

lemma reindexFrom_map_order (l : List DBMessagePart) (n : Nat) :
    (reindexFrom n l).map (fun r => r.order) = List.range' n l.length := by
  induction l generalizing n with
  | nil => rfl
  | cons r rs ih =>
      simp only [reindexFrom, List.map_cons, List.length_cons, List.range'_succ]
      exact congrArg _ (ih (n + 1))

lemma reindexFrom_length (l : List DBMessagePart) (n : Nat) :
    (reindexFrom n l).length = l.length := by
  induction l generalizing n with
  | nil => rfl
  | cons r rs ih => simp [reindexFrom, ih]

lemma mapPartsFrom_length (A : List UIMessagePart) (mid : String) (l : List UIMessagePart)
    (n : Nat) : (mapPartsFrom A mid n l).length = l.length := by
  induction l generalizing n with
  | nil => rfl
  | cons p ps ih => simp [mapPartsFrom, ih]

lemma mapPartsFrom_orders_sublist (A : List UIMessagePart) (mid : String)
    (l : List UIMessagePart) (n : Nat) :
    List.Sublist (((mapPartsFrom A mid n l).filterMap id).map (fun r => r.order))
      (List.range' n l.length) := by
  induction l generalizing n with
  | nil => simp [mapPartsFrom]
  | cons p ps ih =>
      simp only [mapPartsFrom, List.length_cons, List.range'_succ]
      cases h : mapOnePart A mid n p with
      | none =>
          simp only [List.filterMap_cons, id_eq]
          exact (ih (n + 1)).cons n
      | some r =>
          simp only [List.filterMap_cons, id_eq, List.map_cons]
          rw [mapOnePart_order A mid n p r h]
          exact (ih (n + 1)).cons₂ n

/-- Claim C2: order density — for every input part sequence, the encoded
row list carries `order` values exactly `{0, ..., M-1}` in list position
order, `M` is at most the input length, the surviving rows keep the
relative order of their source parts (their pre-reindex `order` values, the
source positions, form a sublist of `0..N-1`), and the output is exactly
the re-indexing of the surviving rows. -/
theorem c2_order_density (parts : List UIMessagePart) (mid : String) :
    (mapUIMessagePartsToDBParts parts mid).map (fun r => r.order) =
      List.range (mapUIMessagePartsToDBParts parts mid).length ∧
    (mapUIMessagePartsToDBParts parts mid).length ≤ parts.length ∧
    List.Sublist (((mapPartsFrom parts mid 0 parts).filterMap id).map (fun r => r.order))
      (List.range parts.length) ∧
    mapUIMessagePartsToDBParts parts mid =
      reindexFrom 0 ((mapPartsFrom parts mid 0 parts).filterMap id) := by
  refine ⟨?_, ?_, ?_, rfl⟩
  · unfold mapUIMessagePartsToDBParts
    rw [reindexFrom_map_order, reindexFrom_length, List.range_eq_range']
  · unfold mapUIMessagePartsToDBParts
    rw [reindexFrom_length]
    calc ((mapPartsFrom parts mid 0 parts).filterMap id).length
        ≤ (mapPartsFrom parts mid 0 parts).length := List.length_filterMap_le _ _
      _ = parts.length := mapPartsFrom_length parts mid parts 0
  · rw [List.range_eq_range']
    exact mapPartsFrom_orders_sublist parts mid parts 0

/-- Claim C9 counterexample: an absent `max_results` is not raised to 10 —
the destructuring default makes it 20. -/
theorem c9_counterexample : effectiveMaxResults none = 20 ∧ (20 : Int) ≠ 10 := by
  constructor
  · rfl
  · decide

/-- Claim C9 (amended): the effective max-results passed to the provider is
always at least 10, a supplied value below 10 is raised to exactly 10, and
an absent value defaults to 20 (not 10). -/
theorem c9_amended (mr : Option Int) :
    10 ≤ effectiveMaxResults mr ∧
    (∀ k : Int, mr = some k → k < 10 → effectiveMaxResults mr = 10) ∧
    (mr = none → effectiveMaxResults mr = 20) := by
  cases mr with
  | none =>
      refine ⟨by decide, ?_, fun _ => rfl⟩
      intro k hk
      exact absurd hk (by simp)
  | some k =>
      refine ⟨?_, ?_, fun h => by cases h⟩
      · unfold effectiveMaxResults
        simp only [Option.getD_some]
        exact le_max_right _ _
      · intro k2 hk hlt
        have hkk : k = k2 := by injection hk
        subst hkk
        unfold effectiveMaxResults
        simp only [Option.getD_some]
        by_cases h0 : k = 0
        · rw [if_pos h0]
          exact max_self 10
        · rw [if_neg h0]
          exact max_eq_right (le_of_lt hlt)

/-- Claim C9 amended, witness at `max_results = 3`. -/
theorem c9_amended_witness :
    10 ≤ effectiveMaxResults (some 3) ∧
    (∀ k : Int, (some 3 : Option Int) = some k → k < 10 →
      effectiveMaxResults (some 3) = 10) ∧
    ((some 3 : Option Int) = none → effectiveMaxResults (some 3) = 20) :=
  c9_amended (some 3)

/-- Claim C5: mode policy — quick mode has a step budget of 20 and active
tools exactly search and fetch, its search tool is the wrapper (a stream),
the wrapper delegates with the `type` input forced to `"optimized"` and
passes every streamed event through unmodified; planning mode has a step
budget of 50 and, when a streaming sink is present, forces the first step's
tool choice to `todoWrite`. -/
theorem c5_mode_policy (w : Bool) (execOrig : SearchParams → ExecOutcome)
    (p : SearchParams) (chunks : List SearchEvent) :
    (createResearcher .quick w execOrig).maxSteps = 20 ∧
    (createResearcher .quick w execOrig).activeTools = ["search", "fetch"] ∧
    (createResearcher .quick w execOrig).searchExec p =
      .streamed (wrapSearchToolForQuickMode execOrig p) ∧
    (execOrig { p with type := "optimized" } = .streamed chunks →
      wrapSearchToolForQuickMode execOrig p = chunks) ∧
    (createResearcher .planning w execOrig).maxSteps = 50 ∧
    (w = true → (createResearcher .planning w execOrig).prepareStep 0 = some "todoWrite") := by
  refine ⟨rfl, rfl, rfl, ?_, rfl, ?_⟩
  · intro h
    unfold wrapSearchToolForQuickMode
    rw [h]
  · intro h
    subst h
    rfl

/-- Claim C5, witness at a concrete mode/tool instantiation. -/
theorem c5_mode_policy_witness :
    (createResearcher .quick true (fun q => .streamed [.searching q.query])).maxSteps = 20 ∧
    (createResearcher .quick true (fun q => .streamed [.searching q.query])).activeTools =
      ["search", "fetch"] ∧
    (createResearcher .quick true (fun q => .streamed [.searching q.query])).searchExec
      { query := "lean", type := "general" } =
      .streamed (wrapSearchToolForQuickMode (fun q => .streamed [.searching q.query])
        { query := "lean", type := "general" }) ∧
    ((fun (q : SearchParams) => ExecOutcome.streamed [.searching q.query])
        { ({ query := "lean", type := "general" } : SearchParams) with type := "optimized" } =
        .streamed [.searching "lean"] →
      wrapSearchToolForQuickMode (fun q => .streamed [.searching q.query])
        { query := "lean", type := "general" } = [.searching "lean"]) ∧
    (createResearcher .planning true (fun q => .streamed [.searching q.query])).maxSteps = 50 ∧
    (true = true →
      (createResearcher .planning true (fun q => .streamed [.searching q.query])).prepareStep 0 =
        some "todoWrite") :=
  c5_mode_policy true (fun q => .streamed [.searching q.query])
    { query := "lean", type := "general" } [.searching "lean"]

/-- Claim C7: cache eviction — inserting a fresh key into a full (100-entry)
cache removes exactly the earliest-inserted entry (the head of the
insertion-ordered map) and appends the new entry; every other entry
survives in order. -/
theorem c7_cache_eviction {α : Type} (c : List (String × α)) (k : String) (v : α)
    (hlen : c.length = 100)
    (hfresh : ∀ e ∈ c, e.1 ≠ k)
    (hhead : c.head?.all (fun e => e.1 != "") = true) :
    setCache c k v = c.tail ++ [(k, v)] := by
  cases c with
  | nil => simp at hlen
  | cons e t =>
      have hne : ¬(e.1 = "") := by
        simp only [List.head?_cons, Option.all] at hhead
        simpa using hhead
      have hdel : mapDelete (e :: t) e.1 = t := by
        unfold mapDelete
        exact List.eraseP_cons_of_pos (by simp)
      have hany : t.any (fun x => x.1 = k) = false := by
        rw [List.any_eq_false]
        intro x hx
        simpa using hfresh x (List.mem_cons_of_mem e hx)
      unfold setCache
      simp only [hlen, le_refl, if_true, List.head?_cons]
      rw [if_neg hne, hdel]
      unfold mapSet
      rw [hany]
      rfl

/-- Claim C7, witness: a concrete full cache of 100 distinct keys and a
fresh 101st key. -/
theorem c7_cache_eviction_witness :
    setCache ((List.range 100).map (fun n => (toString n, (0 : Nat)))) "fresh-key" 0 =
      ((List.range 100).map (fun n => (toString n, (0 : Nat)))).tail ++ [("fresh-key", 0)] :=
  c7_cache_eviction _ _ _ (by simp) (by decide) (by decide)

/-- Claim C10: the row encoded for any extended tool part has a non-null
call id and a non-null state — a missing call id becomes the freshly
generated one and a missing state defaults to `input-available` — so the
row satisfies the schema's `tool_fields_required` check constraint. -/
theorem c10_tool_row_completeness (A : List UIMessagePart) (mid : String) (i : Nat)
    (name : ExtToolName) (tid : Option String) (st : Option ToolState)
    (err : Option String) (inp outp : Option Val) :
    ∃ r, mapOnePart A mid i (.extTool name tid st err inp outp) = some r ∧
      r.tool_toolCallId.isSome = true ∧ r.tool_state.isSome = true ∧
      toolFieldsRequired r ∧
      (tid = none → r.tool_toolCallId = some generateId) ∧
      (st = none → r.tool_state = some "input-available") := by
  refine ⟨_, rfl, ?_, ?_, ?_, ?_, ?_⟩
  · rw [(createToolPartMapping_shared _ _ _ _ _ _ _ _ _).2.2.1]
    rfl
  · rw [(createToolPartMapping_shared _ _ _ _ _ _ _ _ _).2.2.2.1]
    rfl
  · exact Or.inr ⟨by rw [(createToolPartMapping_shared _ _ _ _ _ _ _ _ _).2.2.1]; simp,
      by rw [(createToolPartMapping_shared _ _ _ _ _ _ _ _ _).2.2.2.1]; simp⟩
  · intro h
    subst h
    rw [(createToolPartMapping_shared _ _ _ _ _ _ _ _ _).2.2.1]
    rfl
  · intro h
    subst h
    rw [(createToolPartMapping_shared _ _ _ _ _ _ _ _ _).2.2.2.1]
    rfl

/-- Claim C10, witness: a search tool part lacking both call id and state. -/
theorem c10_tool_row_completeness_witness :
    ∃ r, mapOnePart [] "m1" 0 (.extTool .search none none none none none) = some r ∧
      r.tool_toolCallId.isSome = true ∧ r.tool_state.isSome = true ∧
      toolFieldsRequired r ∧
      ((none : Option String) = none → r.tool_toolCallId = some generateId) ∧
      ((none : Option ToolState) = none → r.tool_state = some "input-available") :=
  c10_tool_row_completeness [] "m1" 0 .search none none none none none

lemma mapPartsFrom_append (A : List UIMessagePart) (mid : String)
    (pre rest : List UIMessagePart) (n : Nat) :
    mapPartsFrom A mid n (pre ++ rest) =
      mapPartsFrom A mid n pre ++ mapPartsFrom A mid (n + pre.length) rest := by
  induction pre generalizing n with
  | nil => simp [mapPartsFrom]
  | cons p ps ih =>
      simp only [List.cons_append, mapPartsFrom, List.length_cons, List.append_eq]
      rw [ih (n + 1)]
      have harith : n + 1 + ps.length = n + (ps.length + 1) := by omega
      rw [harith]

lemma update_order_type (x : DBMessagePart) (n : Nat) :
    ({ x with order := n } : DBMessagePart).type = x.type := by
  cases x
  rfl

lemma reindexFrom_mem_type (l : List DBMessagePart) (n : Nat) (r : DBMessagePart)
    (h : r ∈ l) : ∃ u ∈ reindexFrom n l, u.type = r.type := by
  induction l generalizing n with
  | nil => cases h
  | cons a t ih =>
      rcases List.mem_cons.mp h with rfl | h2
      · exact ⟨{ r with order := n }, List.mem_cons_self _ _, update_order_type r n⟩
      · obtain ⟨u, hu, ht⟩ := ih (n + 1) h2
        exact ⟨u, List.mem_cons_of_mem _ hu, ht⟩

lemma mapOnePart_toolResult_unknown (A : List UIMessagePart) (mid : String) (i : Nat)
    (tid : Option String) (res : Option Val) (isErr : Option Bool)
    (hname : getToolNameFromCallId tid A = "unknown") :
    ∃ r, mapOnePart A mid i (.toolResult tid res isErr) = some r ∧
      r.type = "tool-unknown" := by
  refine ⟨_, rfl, ?_⟩
  simp only [mapOnePart, hname]
  rfl

/-- Claim C8: a `tool-result` part whose call id matches no `tool-call` in
the same batch is mapped (not dropped, no error) to a row typed
`tool-unknown`, and that row survives into the encoded output. -/
theorem c8_unknown_tool_result (pre post : List UIMessagePart) (mid : String)
    (tid : Option String) (res : Option Val) (isErr : Option Bool)
    (hnone : (pre ++ UIMessagePart.toolResult tid res isErr :: post).find?
      (isToolCallWithId tid) = none) :
    (∃ r0, mapOnePart (pre ++ UIMessagePart.toolResult tid res isErr :: post) mid
        pre.length (.toolResult tid res isErr) = some r0 ∧ r0.type = "tool-unknown") ∧
    ∃ r ∈ mapUIMessagePartsToDBParts (pre ++ UIMessagePart.toolResult tid res isErr :: post) mid,
      r.type = "tool-unknown" := by
  have hname : getToolNameFromCallId tid
      (pre ++ UIMessagePart.toolResult tid res isErr :: post) = "unknown" := by
    unfold getToolNameFromCallId
    rw [hnone]
  obtain ⟨r0, hr0, htype⟩ := mapOnePart_toolResult_unknown
    (pre ++ UIMessagePart.toolResult tid res isErr :: post) mid pre.length tid res isErr hname
  refine ⟨⟨r0, hr0, htype⟩, ?_⟩
  have hmem : r0 ∈ ((mapPartsFrom (pre ++ UIMessagePart.toolResult tid res isErr :: post) mid 0
      (pre ++ UIMessagePart.toolResult tid res isErr :: post)).filterMap id) := by
    rw [mapPartsFrom_append, List.filterMap_append]
    apply List.mem_append_right
    simp only [mapPartsFrom, Nat.zero_add]
    rw [hr0]
    simp only [List.filterMap_cons, id_eq]
    exact List.mem_cons_self _ _
  obtain ⟨u, hu, hut⟩ := reindexFrom_mem_type _ 0 r0 hmem
  exact ⟨u, hu, hut.trans htype⟩

/-- Claim C8, witness: one bare `tool-result` in a batch with no matching
`tool-call`. -/
theorem c8_unknown_tool_result_witness :
    (∃ r0, mapOnePart ([] ++ UIMessagePart.toolResult (some "call-7") none none :: []) "m1"
        (List.length ([] : List UIMessagePart)) (.toolResult (some "call-7") none none) = some r0 ∧
        r0.type = "tool-unknown") ∧
    ∃ r ∈ mapUIMessagePartsToDBParts
      ([] ++ UIMessagePart.toolResult (some "call-7") none none :: []) "m1",
      r.type = "tool-unknown" :=
  c8_unknown_tool_result [] [] "m1" (some "call-7") none none rfl

/-- Claim C6: when the regeneration target is found by id at index `i` and
is an assistant message, the orchestrator deletes it and everything after
it from storage and returns exactly the first `i` messages in order. -/
theorem c6_regeneration_assistant (store : List Message) (targetId : String)
    (edited : Option Message) (i : Nat) (m : Message)
    (hfind : store.findIdx? (fun x => x.id == targetId) = some i)
    (hget : store[i]? = some m)
    (hrole : m.role = "assistant") :
    prepareMessagesRegenerate store targetId edited = .ok (store.take i, store.take i) := by
  have hne : ¬(store.length = 0) := by
    cases store
    · simp [List.findIdx?] at hfind
    · simp
  have htarget : store.getD i { id := "", role := "" } = m := by
    rw [List.getD_eq_getElem?_getD, hget]
    rfl
  unfold prepareMessagesRegenerate
  rw [if_neg hne, hfind]
  show Except.ok (handleRegenTarget store targetId edited i) =
    Except.ok (store.take i, store.take i)
  simp only [handleRegenTarget, htarget]
  rw [if_pos hrole]
  unfold deleteMessagesFromIndex
  rw [hfind]

/-- Claim C6, witness: the spec's own example — history
`[user1, assistant1, user2, assistant2]`, target `assistant2`. -/
theorem c6_regeneration_assistant_witness :
    prepareMessagesRegenerate
      [{ id := "m1", role := "user" }, { id := "m2", role := "assistant" },
       { id := "m3", role := "user" }, { id := "m4", role := "assistant" }] "m4" none =
    .ok (([{ id := "m1", role := "user" }, { id := "m2", role := "assistant" },
       { id := "m3", role := "user" }, { id := "m4", role := "assistant" }] : List Message).take 3,
      ([{ id := "m1", role := "user" }, { id := "m2", role := "assistant" },
       { id := "m3", role := "user" }, { id := "m4", role := "assistant" }] : List Message).take 3) :=
  c6_regeneration_assistant _ "m4" none 3 { id := "m4", role := "assistant" }
    (by decide) (by decide) rfl

/-- The row of the C3 counterexample: a persisted `tool-dynamic` row whose
`tool_state` is null. -/
def c3row : DBMessagePart :=
  { messageId := "m1", order := 0, type := "tool-dynamic" }

/-- Claim C3 counterexample: decoding a tool-typed row (`tool-dynamic`)
whose stored state is null does not raise any error — the decoder returns a
`dynamic-tool` part with the null state passed through unchecked. -/
theorem c3_counterexample :
    strStartsWith c3row.type "tool-" = true ∧ c3row.tool_state = none ∧
    mapDBPartToUIMessagePart c3row =
      .ok (.dynamicTool (some "") "" none none none none) :=
  ⟨by decide, rfl, by rfl⟩

lemma decodeRegisteredTool_bad (name : ExtToolName) (r : DBMessagePart)
    (hbad : r.tool_state = none ∨ ∃ s, r.tool_state = some s ∧
      s ∉ (["input-streaming", "input-available", "output-available",
        "output-error"] : List String)) :
    ∃ e, decodeRegisteredTool name r = .error e := by
  have hnone : r.tool_state = none →
      decodeRegisteredTool name r = .error ("tool_state is undefined for " ++ name.toStr) := by
    intro h
    unfold decodeRegisteredTool
    rw [h]
  have hsome : ∀ s, r.tool_state = some s →
      decodeRegisteredTool name r = decodeRegisteredToolState name r s := by
    intro s h
    unfold decodeRegisteredTool
    rw [h]
  obtain h | ⟨s, hs, hmem⟩ := hbad
  · exact ⟨_, hnone h⟩
  · rw [hsome s hs]
    unfold decodeRegisteredToolState
    simp only [List.mem_cons, List.not_mem_nil, or_false, not_or] at hmem
    obtain ⟨h1, h2, h3, h4⟩ := hmem
    by_cases hse : s = ""
    · rw [if_pos hse]
      exact ⟨_, rfl⟩
    · rw [if_neg hse, if_neg h1, if_neg h2, if_neg h3, if_neg h4]
      exact ⟨_, rfl⟩

/-- Claim C3 (amended): for the five registered tool row types
(`tool-search`, `tool-fetch`, `tool-question`, `tool-todoWrite`,
`tool-todoRead`) a null stored state, or a state outside the closed set, is
a fatal decode error; dynamic-tool rows (and other tool-typed rows) do not
validate the state (see the counterexample). -/
theorem c3_amended_registered_state_fatal (r : DBMessagePart) (name : ExtToolName)
    (htype : r.type = "tool-" ++ name.toStr)
    (hbad : r.tool_state = none ∨ ∃ s, r.tool_state = some s ∧
      s ∉ (["input-streaming", "input-available", "output-available",
        "output-error"] : List String)) :
    ∃ e, mapDBPartToUIMessagePart r = .error e := by
  have hdisp : mapDBPartToUIMessagePart r = decodeRegisteredTool name r := by
    cases name <;> simp +decide [mapDBPartToUIMessagePart, htype]
  rw [hdisp]
  exact decodeRegisteredTool_bad name r hbad

/-- Claim C3 amended, witness: a `tool-search` row with state `"bogus"`. -/
theorem c3_amended_witness :
    ∃ e, mapDBPartToUIMessagePart
      { messageId := "m1", order := 0, type := "tool-search",
        tool_state := some "bogus" } = .error e :=
  c3_amended_registered_state_fatal _ .search (by decide)
    (Or.inr ⟨"bogus", rfl, by decide⟩)

/-! ## C4: result merging -/

lemma foldl_dedupStep_eq {α : Type} (key : α → String) (l : List α)
    (seen : List String) (acc : List α) :
    (l.foldl (dedupStep key) (seen, acc)).2 = acc ++ dedupFirst key l seen := by
  induction l generalizing seen acc with
  | nil => simp [dedupFirst]
  | cons x rest ih =>
      simp only [List.foldl_cons, dedupStep, dedupFirst]
      by_cases h : seen.contains (key x)
      · rw [if_pos h, if_pos h]
        exact ih seen acc
      · rw [if_neg h, if_neg h]
        rw [ih (key x :: seen) (acc ++ [x])]
        simp [List.append_assoc]

lemma foldl_nested {α β γ : Type} (g : β → List α) (f : γ → α → γ) (rs : List β) (acc : γ) :
    rs.foldl (fun a r => (g r).foldl f a) acc = (rs.flatMap g).foldl f acc := by
  induction rs generalizing acc with
  | nil => rfl
  | cons r rest ih =>
      simp only [List.foldl_cons, List.flatMap_cons, List.foldl_append]
      exact ih ((g r).foldl f acc)

lemma mem_insertDesc (x y : SearchResultItem) (l : List SearchResultItem) :
    y ∈ insertDesc x l ↔ y = x ∨ y ∈ l := by
  induction l with
  | nil => simp [insertDesc]
  | cons a t ih =>
      simp only [insertDesc]
      split
      · simp only [List.mem_cons, ih]
        tauto
      · simp only [List.mem_cons]

lemma perm_insertDesc (x : SearchResultItem) (l : List SearchResultItem) :
    (insertDesc x l).Perm (x :: l) := by
  induction l with
  | nil => exact List.Perm.refl _
  | cons a t ih =>
      simp only [insertDesc]
      split
      · exact (ih.cons a).trans (List.Perm.swap x a t)
      · exact List.Perm.refl _

lemma perm_sortByScoreDesc (l : List SearchResultItem) : (sortByScoreDesc l).Perm l := by
  induction l with
  | nil => exact List.Perm.refl _
  | cons x xs ih => exact (perm_insertDesc x (sortByScoreDesc xs)).trans (ih.cons x)

lemma pairwise_insertDesc (x : SearchResultItem) (l : List SearchResultItem)
    (h : l.Pairwise (fun a b => scoreOf b ≤ scoreOf a)) :
    (insertDesc x l).Pairwise (fun a b => scoreOf b ≤ scoreOf a) := by
  induction l with
  | nil => simp [insertDesc]
  | cons a t ih =>
      obtain ⟨ha, ht⟩ := List.pairwise_cons.mp h
      simp only [insertDesc]
      split
      next hlt =>
        rw [List.pairwise_cons]
        refine ⟨?_, ih ht⟩
        intro z hz
        rcases (mem_insertDesc x z t).mp hz with rfl | hzt
        · exact le_of_lt hlt
        · exact ha z hzt
      next hge =>
        rw [List.pairwise_cons]
        refine ⟨?_, h⟩
        intro z hz
        rcases List.mem_cons.mp hz with rfl | hzt
        · exact not_lt.mp hge
        · exact le_trans (ha z hzt) (not_lt.mp hge)

lemma pairwise_sortByScoreDesc (l : List SearchResultItem) :
    (sortByScoreDesc l).Pairwise (fun a b => scoreOf b ≤ scoreOf a) := by
  induction l with
  | nil => simp [sortByScoreDesc]
  | cons x xs ih => exact pairwise_insertDesc x (sortByScoreDesc xs) ih

lemma dedupFirst_keys_fresh {α : Type} (key : α → String) (l : List α)
    (seen : List String) :
    ((dedupFirst key l seen).map key).Nodup ∧
    ∀ u ∈ (dedupFirst key l seen).map key, u ∉ seen := by
  induction l generalizing seen with
  | nil => simp [dedupFirst]
  | cons x rest ih =>
      simp only [dedupFirst]
      by_cases h : seen.contains (key x)
      · rw [if_pos h]
        exact ih seen
      · rw [if_neg h]
        have hx : key x ∉ seen := by
          intro hm
          exact h (List.elem_iff.mpr hm)
        obtain ⟨hnd, hfresh⟩ := ih (key x :: seen)
        simp only [List.map_cons, List.nodup_cons]
        refine ⟨⟨?_, hnd⟩, ?_⟩
        · intro hmem
          exact (hfresh (key x) hmem) (List.mem_cons_self _ _)
        · intro u hu
          rcases List.mem_cons.mp hu with rfl | hu2
          · exact hx
          · intro hus
            exact (hfresh u hu2) (List.mem_cons_of_mem _ hus)

/-- The duplicated-URL single result set of the C4 counterexample. -/
def c4set : SearchResults :=
  { query := some "q",
    results := [{ url := "a", title := "t1", content := "c1", score := none },
                { url := "a", title := "t2", content := "c2", score := none }],
    images := [], answer := none }

/-- Claim C4 counterexample: merging a one-element list of result sets with
a requested maximum of 1 returns the set unchanged — the output has two
entries sharing the URL `"a"` and exceeds the requested maximum, so neither
the at-most-once URL property nor the truncation holds for every input
list. -/
theorem c4_counterexample :
    (mergeResults [c4set] (some 1)).results.map (fun it => it.url) = ["a", "a"] ∧
    1 < (mergeResults [c4set] (some 1)).results.length :=
  ⟨rfl, by decide⟩

/-- Claim C4 (amended): for a merge of at least two result sets, the merged
results are the first-occurrence URL-dedup of the concatenated inputs,
stably sorted by descending score (a missing score counts as 0) and
truncated to the requested maximum (`maxResults || 20`); merged URLs are
pairwise distinct; images are the first-occurrence URL-dedup of the
concatenated images capped at 10; and the merged answer is the first
non-empty answer of the first two sets (later sets are never consulted —
and a single-set input is returned entirely unchanged, see the
counterexample). -/
theorem c4_amended_merge (r0 r1 : SearchResults) (rest : List SearchResults)
    (maxR : Option Nat) :
    (mergeResults (r0 :: r1 :: rest) maxR).results =
      (sortByScoreDesc (dedupFirst (fun it => it.url)
        ((r0 :: r1 :: rest).flatMap (fun s => s.results)) [])).take (jsLimit maxR) ∧
    (mergeResults (r0 :: r1 :: rest) maxR).results.Pairwise
      (fun a b => scoreOf b ≤ scoreOf a) ∧
    ((mergeResults (r0 :: r1 :: rest) maxR).results.map (fun it => it.url)).Nodup ∧
    (mergeResults (r0 :: r1 :: rest) maxR).results.length ≤ jsLimit maxR ∧
    (mergeResults (r0 :: r1 :: rest) maxR).images =
      (dedupFirst (fun im => im.url)
        ((r0 :: r1 :: rest).flatMap (fun s => s.images)) []).take 10 ∧
    ((mergeResults (r0 :: r1 :: rest) maxR).images.map (fun im => im.url)).Nodup ∧
    (mergeResults (r0 :: r1 :: rest) maxR).images.length ≤ 10 ∧
    (mergeResults (r0 :: r1 :: rest) maxR).answer = jsOrOpt r0.answer r1.answer ∧
    (mergeResults (r0 :: r1 :: rest) maxR).query = r0.query ∧
    mergeResults [r0] maxR = r0 := by
  have hres : (mergeResults (r0 :: r1 :: rest) maxR).results =
      (sortByScoreDesc (((r0 :: r1 :: rest).foldl
        (fun acc r => r.results.foldl (dedupStep (fun it => it.url)) acc)
        (([] : List String), ([] : List SearchResultItem))).2)).take (jsLimit maxR) := rfl
  have hresd : (mergeResults (r0 :: r1 :: rest) maxR).results =
      (sortByScoreDesc (dedupFirst (fun it => it.url)
        ((r0 :: r1 :: rest).flatMap (fun s => s.results)) [])).take (jsLimit maxR) := by
    rw [hres, foldl_nested, foldl_dedupStep_eq]
    rfl
  have himg : (mergeResults (r0 :: r1 :: rest) maxR).images =
      (((r0 :: r1 :: rest).foldl
        (fun acc r => r.images.foldl (dedupStep (fun im => im.url)) acc)
        (([] : List String), ([] : List SearchResultImage))).2).take 10 := rfl
  have himgd : (mergeResults (r0 :: r1 :: rest) maxR).images =
      (dedupFirst (fun im => im.url)
        ((r0 :: r1 :: rest).flatMap (fun s => s.images)) []).take 10 := by
    rw [himg, foldl_nested, foldl_dedupStep_eq]
    rfl
  refine ⟨hresd, ?_, ?_, ?_, himgd, ?_, ?_, rfl, rfl, rfl⟩
  · rw [hresd]
    exact (pairwise_sortByScoreDesc _).sublist (List.take_sublist _ _)
  · rw [hresd]
    have hnd : ((dedupFirst (fun it => it.url)
        ((r0 :: r1 :: rest).flatMap (fun s => s.results)) []).map
        (fun it => it.url)).Nodup :=
      (dedupFirst_keys_fresh _ _ _).1
    have hperm := (perm_sortByScoreDesc (dedupFirst (fun it => it.url)
      ((r0 :: r1 :: rest).flatMap (fun s => s.results)) [])).map (fun it => it.url)
    have hnd2 := (hperm.nodup_iff).mpr hnd
    exact hnd2.sublist ((List.take_sublist _ _).map _)
  · rw [hresd]
    exact List.length_take_le _ _
  · rw [himgd]
    exact ((dedupFirst_keys_fresh _ _ _).1).sublist ((List.take_sublist _ _).map _)
  · rw [himgd]
    exact List.length_take_le _ _

/-! ## C1: codec round trip -/

lemma jsOrStr_empty_getD (o : Option String) : jsOrStr o "" = o.getD "" := by
  cases o with
  | none => rfl
  | some s =>
      rw [jsOrStr_some_default_empty]
      rfl

lemma encode_singleton (p : UIMessagePart) (mid : String) (r : DBMessagePart)
    (h : mapOnePart [p] mid 0 p = some r) :
    mapUIMessagePartsToDBParts [p] mid = [{ r with order := 0 }] := by
  unfold mapUIMessagePartsToDBParts
  show reindexFrom 0 ((mapOnePart [p] mid 0 p :: mapPartsFrom [p] mid 1 []).filterMap id) = _
  rw [h]
  rfl

lemma data_typ_facts (typ : String) (h : strStartsWith typ "data-" = true)
    (hne : typ ≠ "data-") :
    typ ≠ "text" ∧ typ ≠ "reasoning" ∧ typ ≠ "file" ∧ typ ≠ "source-url" ∧
    typ ≠ "source-document" ∧ strStartsWith typ "tool-" = false ∧ typ ≠ "step-start" ∧
    "data-" ++ strDrop typ 5 = typ ∧ ¬(strDrop typ 5 = "") := by
  obtain ⟨u, hu⟩ := (strStartsWith_iff typ "data-").mp h
  have hd5 : "data-".data = ['d', 'a', 't', 'a', '-'] := by decide
  have hdata : typ.data = 'd' :: 'a' :: 't' :: 'a' :: '-' :: u := by
    rw [← hu, hd5]
    rfl
  have hhead : typ.data.head? = some 'd' := by rw [hdata]; rfl
  have hdrop : strDrop typ 5 = String.mk u := by
    unfold strDrop
    rw [hdata]
    rfl
  have happ : "data-" ++ strDrop typ 5 = typ := by
    rw [hdrop]
    show String.mk ("data-".data ++ u) = typ
    rw [hu]
  have hune : u ≠ [] := by
    intro h0
    subst h0
    apply hne
    have h2 : typ.data = "data-".data := by rw [hdata, hd5]
    calc typ = String.mk typ.data := rfl
      _ = String.mk "data-".data := by rw [h2]
      _ = "data-" := rfl
  have hpref : ¬(strDrop typ 5 = "") := by
    rw [hdrop]
    intro hcon
    apply hune
    have h3 := congrArg String.data hcon
    simpa using h3
  have htool : strStartsWith typ "tool-" = false := by
    cases hcon : strStartsWith typ "tool-" with
    | false => rfl
    | true =>
        obtain ⟨w, hw⟩ := (strStartsWith_iff typ "tool-").mp hcon
        have h1 : typ.data.head? = some 't' := by
          rw [← hw]
          rfl
        exact absurd (hhead.symm.trans h1) (by decide)
  refine ⟨?_, ?_, ?_, ?_, ?_, htool, ?_, happ, hpref⟩ <;>
    (intro he; rw [he] at hhead; exact absurd hhead (by decide))

/-- Claim C1: part codec round trip — for every supported, well-formed part
variant (text, reasoning, file, source-url, source-document, each registered
tool part in each of the four tool states, dynamic-tool, data-passthrough),
encoding the singleton batch yields exactly one row, and decoding that row
succeeds (never an error) with the same tagged variant and the same payload
for every defined field; the only presence change is `canonPart`: an
undefined optional file name decodes to the empty string. -/
theorem c1_part_codec_roundtrip (p : UIMessagePart) (mid : String)
    (hwf : supportedWF p = true) :
    ∃ row, mapUIMessagePartsToDBParts [p] mid = [row] ∧
      mapDBPartToUIMessagePart row = Except.ok (canonPart p) := by
  cases p with
  | text t =>
      refine ⟨_, encode_singleton _ mid _ rfl, ?_⟩
      simp +decide [mapDBPartToUIMessagePart, canonPart, jsOrStr_empty_getD]
  | reasoning t pm =>
      refine ⟨_, encode_singleton _ mid _ rfl, ?_⟩
      simp +decide [mapDBPartToUIMessagePart, canonPart, jsOrStr_empty_getD]
  | file mt fn url =>
      refine ⟨_, encode_singleton _ mid _ rfl, ?_⟩
      simp +decide [mapDBPartToUIMessagePart, canonPart, jsOrStr_empty_getD]
  | sourceUrl sid url title =>
      refine ⟨_, encode_singleton _ mid _ rfl, ?_⟩
      simp +decide [mapDBPartToUIMessagePart, canonPart, jsOrStr_empty_getD]
  | sourceDocument sid mt title fn url snip =>
      refine ⟨_, encode_singleton _ mid _ rfl, ?_⟩
      simp +decide [mapDBPartToUIMessagePart, canonPart, jsOrStr_empty_getD]
  | toolCall tid tname args => simp [supportedWF] at hwf
  | toolResult tid res isErr => simp [supportedWF] at hwf
  | stepStart => simp [supportedWF] at hwf
  | stepResult => simp [supportedWF] at hwf
  | stepContinue => simp [supportedWF] at hwf
  | stepFinish => simp [supportedWF] at hwf
  | extTool name tid st err inp outp =>
      cases tid with
      | none => simp [supportedWF] at hwf
      | some t =>
      cases st with
      | none => simp [supportedWF] at hwf
      | some s =>
      simp only [supportedWF, Bool.and_eq_true] at hwf
      obtain ⟨ht, hst⟩ := hwf
      have htne : t ≠ "" := by simpa using ht
      cases s with
      | inputStreaming =>
          simp only [Bool.and_eq_true, Option.isNone_iff_eq_none] at hst
          obtain ⟨he, ho⟩ := hst
          subst he
          subst ho
          refine ⟨_, encode_singleton _ mid _ rfl, ?_⟩
          cases name <;>
            simp +decide [mapDBPartToUIMessagePart, decodeRegisteredTool,
              decodeRegisteredToolState, createToolPartMapping, setInputColumn,
              setOutputColumn, getInputColumn, getOutputColumn, canonPart, jsOrStr,
              ToolState.toStr, ExtToolName.toStr, htne]
      | inputAvailable =>
          simp only [Bool.and_eq_true, Option.isNone_iff_eq_none] at hst
          obtain ⟨he, ho⟩ := hst
          subst he
          subst ho
          refine ⟨_, encode_singleton _ mid _ rfl, ?_⟩
          cases name <;>
            simp +decide [mapDBPartToUIMessagePart, decodeRegisteredTool,
              decodeRegisteredToolState, createToolPartMapping, setInputColumn,
              setOutputColumn, getInputColumn, getOutputColumn, canonPart, jsOrStr,
              ToolState.toStr, ExtToolName.toStr, htne]
      | outputAvailable =>
          simp only [Option.isNone_iff_eq_none] at hst
          subst hst
          refine ⟨_, encode_singleton _ mid _ rfl, ?_⟩
          cases name <;>
            simp +decide [mapDBPartToUIMessagePart, decodeRegisteredTool,
              decodeRegisteredToolState, createToolPartMapping, setInputColumn,
              setOutputColumn, getInputColumn, getOutputColumn, canonPart, jsOrStr,
              ToolState.toStr, ExtToolName.toStr, htne]
      | outputError =>
          simp only [Option.isNone_iff_eq_none] at hst
          subst hst
          refine ⟨_, encode_singleton _ mid _ rfl, ?_⟩
          cases name <;>
            simp +decide [mapDBPartToUIMessagePart, decodeRegisteredTool,
              decodeRegisteredToolState, createToolPartMapping, setInputColumn,
              setOutputColumn, getInputColumn, getOutputColumn, canonPart, jsOrStr,
              ToolState.toStr, ExtToolName.toStr, htne]
  | dynamicTool tid tname st inp outp err =>
      cases tid with
      | none => simp [supportedWF] at hwf
      | some t =>
      cases st with
      | none => simp [supportedWF] at hwf
      | some s =>
      simp only [supportedWF, Bool.and_eq_true] at hwf
      obtain ⟨ht, hst⟩ := hwf
      have htne : t ≠ "" := by simpa using ht
      by_cases h1 : s = "input-streaming"
      · subst h1
        rw [if_pos rfl] at hst
        simp only [Bool.and_eq_true, Option.isNone_iff_eq_none] at hst
        obtain ⟨he, ho⟩ := hst
        subst he
        subst ho
        refine ⟨_, encode_singleton _ mid _ rfl, ?_⟩
        simp +decide [mapDBPartToUIMessagePart, canonPart, jsOrStr, htne, eq_comm]
        split <;> simp_all
      by_cases h2 : s = "input-available"
      · subst h2
        rw [if_neg h1, if_pos rfl] at hst
        simp only [Bool.and_eq_true, Option.isNone_iff_eq_none] at hst
        obtain ⟨he, ho⟩ := hst
        subst he
        subst ho
        refine ⟨_, encode_singleton _ mid _ rfl, ?_⟩
        simp +decide [mapDBPartToUIMessagePart, canonPart, jsOrStr, htne, eq_comm]
        split <;> simp_all
      by_cases h3 : s = "output-available"
      · subst h3
        rw [if_neg h1, if_neg h2, if_pos rfl] at hst
        simp only [Option.isNone_iff_eq_none] at hst
        subst hst
        refine ⟨_, encode_singleton _ mid _ rfl, ?_⟩
        simp +decide [mapDBPartToUIMessagePart, canonPart, jsOrStr, htne, eq_comm]
        split <;> simp_all
      by_cases h4 : s = "output-error"
      · subst h4
        rw [if_neg h1, if_neg h2, if_neg h3, if_pos rfl] at hst
        simp only [Option.isNone_iff_eq_none] at hst
        subst hst
        refine ⟨_, encode_singleton _ mid _ rfl, ?_⟩
        simp +decide [mapDBPartToUIMessagePart, canonPart, jsOrStr, htne, eq_comm]
        split <;> simp_all
      rw [if_neg h1, if_neg h2, if_neg h3, if_neg h4] at hst
      exact absurd hst (by simp)
  | dataPart typ dat id =>
      simp only [supportedWF, Bool.and_eq_true] at hwf
      obtain ⟨⟨⟨hpre, hneb⟩, hdat⟩, hid⟩ := hwf
      have hne' : typ ≠ "data-" := by simpa using hneb
      obtain ⟨v, hv⟩ := Option.isSome_iff_exists.mp hdat
      subst hv
      obtain ⟨h1, h2, h3, h4, h5, htool, h7, happ, hpref⟩ := data_typ_facts typ hpre hne'
      have htr : truthyOpt id = id := by
        cases id with
        | none => rfl
        | some s =>
            have hs : s ≠ "" := by simpa using hid
            show (if s = "" then none else some s) = some s
            rw [if_neg hs]
      have henc : mapOnePart [UIMessagePart.dataPart typ (some v) id] mid 0
          (.dataPart typ (some v) id) =
          some { messageId := mid, order := 0, type := typ,
                 dataPref := some (strDrop typ 5), data_content := some v,
                 data_id := id } := by
        simp only [mapOnePart]
        rw [if_pos hpre]
      refine ⟨_, encode_singleton _ mid _ henc, ?_⟩
      unfold mapDBPartToUIMessagePart
      dsimp only
      rw [if_neg h1, if_neg h2, if_neg h3, if_neg h4, if_neg h5]
      rw [if_neg (show ¬(strStartsWith typ "tool-" = true) by simp [htool])]
      rw [if_neg h7]
      rw [if_neg hpref, happ, htr]
      simp [canonPart]

/-- Claim C1, witness: a concrete text part round-trips. -/
theorem c1_part_codec_roundtrip_witness :
    supportedWF (.text "hello") = true ∧
    ∃ row, mapUIMessagePartsToDBParts [UIMessagePart.text "hello"] "m1" = [row] ∧
      mapDBPartToUIMessagePart row = Except.ok (canonPart (.text "hello")) :=
  ⟨rfl, c1_part_codec_roundtrip (.text "hello") "m1" rfl⟩

end Romy
